import Mathlib

/-!
Shallow embedding of the audio-reactive swarm simulation:
`vector.ts` (Vector2), `boid.ts` (Boid, flocking update), `orchestra.ts`
(frequency analysis), and the zone controller (`Orchestrator`).
Numbers are modelled by the reals; the in-place mutation of the source is
modelled by pure state-passing functions.
-/

noncomputable section

open Real

structure Vector2 where
  x : ℝ
  y : ℝ

def Vector2.add (v w : Vector2) : Vector2 := ⟨v.x + w.x, v.y + w.y⟩

def Vector2.subtract (v w : Vector2) : Vector2 := ⟨v.x - w.x, v.y - w.y⟩

def Vector2.multiply (v : Vector2) (scalar : ℝ) : Vector2 := ⟨v.x * scalar, v.y * scalar⟩

/-- Embeds `length(): Math.sqrt(this.x * this.x + this.y * this.y)`. -/
def Vector2.length (v : Vector2) : ℝ := Real.sqrt (v.x * v.x + v.y * v.y)

/-- Embeds `normalize()`: divides by the length only when it is positive. -/
def Vector2.normalize (v : Vector2) : Vector2 :=
  let len := v.length
  if len > 0 then ⟨v.x / len, v.y / len⟩ else v

/-- Frequency band discriminator, from `boid.ts` (`type Band`). -/
inductive Band where
  | low
  | mid
  | high
deriving DecidableEq

/-- Swarm agent state, from `boid.ts` (`class Boid`). The randomly
initialised fields of the constructor are plain data here. -/
structure Boid where
  position : Vector2
  velocity : Vector2
  acceleration : Vector2
  band : Band
  wanderSeed : ℝ

instance : Inhabited Boid := ⟨⟨⟨0, 0⟩, ⟨0, 0⟩, ⟨0, 0⟩, Band.low, 0⟩⟩

/-- Embeds `Boid.distanceTo`, from `boid.ts`. -/
def Boid.distanceTo (b other : Boid) : ℝ :=
  Real.sqrt ((b.position.x - other.position.x) ^ 2 + (b.position.y - other.position.y) ^ 2)

/-- Modelled from the spec: the repository imports named scalar constants
from a `config.ts` module that is not among the source files. §6 of the
spec lists the configuration surface: neighborhood/separation radii, force
weights (separation, cohesion, alignment), speed bounds (min, max) and the
agent count; the values themselves are unspecified, so they stay abstract. -/
structure Config where
  separationDistance : ℝ
  neighborhoodDistance : ℝ
  separationWeight : ℝ
  cohesionWeight : ℝ
  alignmentWeight : ℝ
  maxSpeed : ℝ
  minVelocity : ℝ
  quantity : ℕ

/-- Embeds `Boid.getSeparation`, from `boid.ts`: inverse-distance-weighted push
away from neighbors closer than `separationDistance`, averaged over the
contributing count. -/
def Boid.getSeparation (cfg : Config) (b : Boid) (boids : List Boid) : Vector2 :=
  let acc := boids.foldl
    (fun (acc : Vector2 × ℕ) other =>
      let d := b.distanceTo other
      if 0 < d ∧ d < cfg.separationDistance then
        (acc.1.add (((b.position.subtract other.position).normalize).multiply (1 / d)), acc.2 + 1)
      else acc)
    (⟨0, 0⟩, 0)
  if 0 < acc.2 then acc.1.multiply (1 / (acc.2 : ℝ)) else acc.1

/-- Embeds `Boid.getCohesion`, from `boid.ts`: unit vector toward the average
position of neighbors within `neighborhoodDistance`. -/
def Boid.getCohesion (cfg : Config) (b : Boid) (boids : List Boid) : Vector2 :=
  let acc := boids.foldl
    (fun (acc : Vector2 × ℕ) other =>
      let d := b.distanceTo other
      if 0 < d ∧ d < cfg.neighborhoodDistance then (acc.1.add other.position, acc.2 + 1)
      else acc)
    (⟨0, 0⟩, 0)
  if 0 < acc.2 then ((acc.1.multiply (1 / (acc.2 : ℝ))).subtract b.position).normalize
  else ⟨0, 0⟩

/-- Embeds `Boid.getAlignment`, from `boid.ts`: unit vector toward the average
neighbor velocity minus own velocity. -/
def Boid.getAlignment (cfg : Config) (b : Boid) (boids : List Boid) : Vector2 :=
  let acc := boids.foldl
    (fun (acc : Vector2 × ℕ) other =>
      let d := b.distanceTo other
      if 0 < d ∧ d < cfg.neighborhoodDistance then (acc.1.add other.velocity, acc.2 + 1)
      else acc)
    (⟨0, 0⟩, 0)
  if 0 < acc.2 then ((acc.1.multiply (1 / (acc.2 : ℝ))).subtract b.velocity).normalize
  else ⟨0, 0⟩

/-- Embeds `Boid.getNeighbors`, from `boid.ts`. -/
def Boid.getNeighbors (cfg : Config) (b : Boid) (boids : List Boid) : List Boid :=
  boids.filter (fun other => decide (other.distanceTo b < cfg.neighborhoodDistance))

/-- Embeds `Boid.getWander`, from `boid.ts`. `Date.now()` is passed in as `now`,
as the spec's design notes direct for testability. -/
def Boid.getWander (b : Boid) (now : ℝ) : Vector2 :=
  let wanderStrength : ℝ := 0.015
  let time := now * 0.0005
  let angle := Real.sin (time + b.wanderSeed) * Real.pi
  ⟨Real.cos angle * wanderStrength, Real.sin angle * wanderStrength⟩

/-- The damped pre-clamp velocity of `Boid.update`, from `boid.ts`: the
re-normalized weighted flocking forces and the wander drift are added to
the velocity, which is then damped by 0.99. -/
def Boid.dampedVelocity (cfg : Config) (b : Boid) (boids : List Boid) (now : ℝ) : Vector2 :=
  let neighbors := b.getNeighbors cfg boids
  let sep := b.getSeparation cfg neighbors
  let coh := b.getCohesion cfg neighbors
  let ali := b.getAlignment cfg neighbors
  let wander := b.getWander now
  let sepForce := if sep.length > 0 then sep.normalize.multiply (cfg.separationWeight * 0.1) else ⟨0, 0⟩
  let cohForce := if coh.length > 0 then coh.normalize.multiply (cfg.cohesionWeight * 0.1) else ⟨0, 0⟩
  let aliForce := if ali.length > 0 then ali.normalize.multiply (cfg.alignmentWeight * 0.1) else ⟨0, 0⟩
  ((((b.velocity.add sepForce).add cohForce).add aliForce).add wander).multiply 0.99

/-- The speed clamp of `Boid.update`, from `boid.ts`: rescale down to
`maxSpeed` when too fast, up to `minVelocity` when positive but too slow. -/
def Boid.clampSpeed (cfg : Config) (v : Vector2) : Vector2 :=
  let speed := v.length
  if speed > cfg.maxSpeed then v.normalize.multiply cfg.maxSpeed
  else if 0 < speed ∧ speed < cfg.minVelocity then v.normalize.multiply cfg.minVelocity
  else v

/-- The position reached by `Boid.update` before the boundary wrap. -/
def Boid.integratedPosition (cfg : Config) (b : Boid) (boids : List Boid) (now : ℝ) : Vector2 :=
  b.position.add (Boid.clampSpeed cfg (b.dampedVelocity cfg boids now))

/-- One axis of the toroidal wrap of `Boid.update`; the Bool records
whether a wrap event happened on this axis. -/
def wrapAxis (extent coord : ℝ) : ℝ × Bool :=
  if coord < 0 then (extent, true)
  else if coord > extent then (0, true)
  else (coord, false)

/-- The wrap conditions of `Boid.update`: the integrated position left the
viewport on some axis, so the wrap branch fires and the random velocity
perturbation is injected. -/
def Boid.wrapOccurs (cfg : Config) (b : Boid) (boids : List Boid)
    (canvasWidth canvasHeight now : ℝ) : Prop :=
  let p := b.integratedPosition cfg boids now
  p.x < 0 ∨ p.x > canvasWidth ∨ p.y < 0 ∨ p.y > canvasHeight

/-- Embeds `Boid.update`, from `boid.ts`. `r1` and `r2` are the two `Math.random()`
draws of the wrap perturbation (each in `[0,1)` at runtime). -/
def Boid.update (cfg : Config) (b : Boid) (boids : List Boid)
    (canvasWidth canvasHeight now r1 r2 : ℝ) : Boid :=
  let v := Boid.clampSpeed cfg (b.dampedVelocity cfg boids now)
  let p := b.position.add v
  let wx := wrapAxis canvasWidth p.x
  let wy := wrapAxis canvasHeight p.y
  let vFinal := if wx.2 || wy.2 then v.add ⟨(r1 - 0.5) * 0.5, (r2 - 0.5) * 0.5⟩ else v
  { b with position := ⟨wx.1, wy.1⟩, velocity := vFinal }

/-- A concrete, sane configuration used for concrete runs: radii 25/50,
weights 1.5/1/1, speed bounds [1, 3]. -/
def cfgEx : Config := ⟨25, 50, 1.5, 1, 1, 3, 1, 100⟩

/-- An isolated agent that will cross the right viewport edge this tick. -/
def wrapBoid : Boid := ⟨⟨999, 500⟩, ⟨4, 0⟩, ⟨0, 0⟩, Band.low, 0⟩

/-- An isolated agent far from every viewport edge. -/
def calmBoid : Boid := ⟨⟨10, 500⟩, ⟨2, 0⟩, ⟨0, 0⟩, Band.low, 0⟩

/-- Per-zone snapshot record, from `orchestra.ts` (`interface SubBandData`). -/
structure SubBandData where
  energies : List ℝ
  dominantBandIndex : ℕ
  averageEnergy : ℝ
  target : Vector2

/-- The three per-band `SubBandData` records of a snapshot. -/
structure Zones where
  low : SubBandData
  mid : SubBandData
  high : SubBandData

/-- Frequency snapshot, from `orchestra.ts` (`interface FrequencyData`).
The boolean beat flag of the source is a proposition on real amplitudes. -/
structure FrequencyData where
  zones : Zones
  amplitude : ℝ
  beat : Prop

/-- Persistent analyzer state, from `orchestra.ts`: the 15 smoothed
sub-band energies and the previous amplitude for beat-edge detection. -/
structure OrchestraState where
  smoothedSubBands : List ℝ
  previousAmplitude : ℝ

namespace Orchestra

def smoothFactor : ℝ := 0.1

def beatThreshold : ℝ := 1.5

/-- Hz lower bound of zone `z` (`ZONE_BOUNDARIES[z].min`). -/
def zoneMinHz (z : ℕ) : ℕ := if z = 0 then 20 else if z = 1 then 250 else 2000

/-- Hz upper bound of zone `z` (`ZONE_BOUNDARIES[z].max`). -/
def zoneMaxHz (z : ℕ) : ℕ := if z = 0 then 250 else if z = 1 then 2000 else 8000

/-- Embeds `Math.floor((hz / NYQUIST_HZ) * binCount)` on naturals. -/
def hzToBin (hz binCount : ℕ) : ℕ := hz * binCount / 22050

def minBin (binCount z : ℕ) : ℕ := hzToBin (zoneMinHz z) binCount

def maxBin (binCount z : ℕ) : ℕ := hzToBin (zoneMaxHz z) binCount

/-- Embeds `Math.ceil(zoneBinRange / SUBBANDS)` on naturals. -/
def subBandSize (binCount z : ℕ) : ℕ := (maxBin binCount z - minBin binCount z + 4) / 5

def binStart (binCount z i : ℕ) : ℕ := minBin binCount z + i * subBandSize binCount z

def binEnd (binCount z i : ℕ) : ℕ :=
  min (binStart binCount z i + subBandSize binCount z) (maxBin binCount z)

/-- The raw byte sum of sub-band `i` of zone `z`, from the inner loop of
`extractSubBands` (the loop does not run when `binEnd ≤ binStart`). -/
def subBandSum (buffer : List ℕ) (z i : ℕ) : ℕ :=
  let n := buffer.length
  (List.range' (binStart n z i) (binEnd n z i - binStart n z i)).foldl
    (fun acc bin => if bin < n then acc + buffer.getD bin 0 else acc) 0

/-- Embeds `energy = (energy / (binEnd - binStart)) / 255` from `extractSubBands`;
the denominator is the signed bin-range width. -/
def subBandEnergy (buffer : List ℕ) (z i : ℕ) : ℝ :=
  let n := buffer.length
  ((subBandSum buffer z i : ℝ) / ((binEnd n z i : ℝ) - (binStart n z i : ℝ))) / 255

/-- Embeds `extractSubBands`, from `orchestra.ts`: the 15 raw sub-band energies,
indexed `zoneIdx * SUBBANDS + subIdx`. -/
def extractSubBands (buffer : List ℕ) : List ℝ :=
  (List.range 15).map (fun k => subBandEnergy buffer (k / 5) (k % 5))

/-- Embeds `smoothFrequencyData`, from `orchestra.ts`: in-place exponential
moving average over the 15 persistent smoothed values. -/
def smoothFrequencyData (smoothed raw : List ℝ) : List ℝ :=
  List.zipWith (fun s r => s * (1 - smoothFactor) + r * smoothFactor) smoothed raw

/-- The dominant-sub-band scan of `createSubBandData`: running maximum
starting from 0, strict comparison, first occurrence wins. -/
def dominantScan (energies : List ℝ) : ℕ :=
  (energies.foldl
    (fun (acc : ℝ × ℕ × ℕ) e =>
      if e > acc.1 then (e, acc.2.2, acc.2.2 + 1) else (acc.1, acc.2.1, acc.2.2 + 1))
    (0, 0, 0)).2.1

/-- Embeds `createSubBandData`, from `orchestra.ts`. -/
def createSubBandData (zoneIdx : ℕ) (smoothed : List ℝ) : SubBandData :=
  let energies := (smoothed.drop (zoneIdx * 5)).take 5
  let dominantBandIndex := dominantScan energies
  let averageEnergy := energies.sum / (energies.length : ℝ)
  ⟨energies, dominantBandIndex, averageEnergy,
    ⟨((dominantBandIndex : ℝ) + 0.5) / 5, averageEnergy⟩⟩

/-- Embeds `detectBeat`, from `orchestra.ts`: amplitude-spike predicate against
the persistent previous amplitude. -/
def detectBeat (currentAmplitude previousAmplitude : ℝ) : Prop :=
  currentAmplitude / (previousAmplitude + 0.001) > beatThreshold ∧ currentAmplitude > 0.1

/-- Embeds `processAudio`, from `orchestra.ts`: one analysis tick over the
current spectral byte buffer, returning the new persistent state and the
emitted snapshot. -/
def processAudio (s : OrchestraState) (buffer : List ℕ) : OrchestraState × FrequencyData :=
  let raw := extractSubBands buffer
  let smoothed := smoothFrequencyData s.smoothedSubBands raw
  let zones : Zones :=
    ⟨createSubBandData 0 smoothed, createSubBandData 1 smoothed, createSubBandData 2 smoothed⟩
  let totalAmplitude :=
    (zones.low.averageEnergy + zones.mid.averageEnergy + zones.high.averageEnergy) / 3
  let beat := detectBeat totalAmplitude s.previousAmplitude
  (⟨smoothed, totalAmplitude⟩, ⟨zones, totalAmplitude, beat⟩)

end Orchestra

/-- Horizontal zone interval of a band, from the `zoneBoundaries` record
of the zone controller. -/
structure ZoneRange where
  min : ℝ
  max : ℝ

/-- Persistent zone-controller state: the "was playing last frame" flag
and the chaos-burst countdown. -/
structure OrchState where
  wasPlaying : Bool
  chaosFramesRemaining : ℕ

namespace Orchestrator

def separationStrength : ℝ := 0.5

def maxSeparationDistance : ℝ := 150

def zoneAttractionStrength : ℝ := 0.35

def rushBackBoost : ℝ := 2.0

def chaosRepulsionStrength : ℝ := 1.5

def chaosRepulsionDistance : ℝ := 200

def chaosDuration : ℕ := 60

/-- Embeds `zoneBoundaries`, from the zone controller: thirds of the screen. -/
def zoneBoundaries : Band → ZoneRange
  | Band.low => ⟨0, 0.33⟩
  | Band.mid => ⟨0.33, 0.66⟩
  | Band.high => ⟨0.66, 1.0⟩

/-- Embeds `getOtherBands`, from the zone controller. -/
def getOtherBands : Band → List Band
  | Band.low => [Band.mid, Band.high]
  | Band.mid => [Band.low, Band.high]
  | Band.high => [Band.low, Band.mid]

/-- One group of `groupBoidsByBand`: the sub-list of a band, in
population order. -/
def bandGroup (boids : List Boid) (band : Band) : List Boid :=
  boids.filter (fun b => b.band = band)

/-- The concatenation of the other-band groups that the repulsion loops
of the zone controller traverse. -/
def otherBandBoids (boids : List Boid) (band : Band) : List Boid :=
  ((getOtherBands band).map (bandGroup boids)).flatten

/-- Embeds `getChaosRepulsion`, from the zone controller: inverse-distance
weighted repulsion from different-band agents within the chaos radius,
averaged, normalized, and scaled by strength times burst intensity. -/
def getChaosRepulsion (b : Boid) (boids : List Boid) (intensity : ℝ) : Vector2 :=
  let acc := (otherBandBoids boids b.band).foldl
    (fun (acc : Vector2 × ℕ) other =>
      let distance := b.distanceTo other
      if 0 < distance ∧ distance < chaosRepulsionDistance then
        (acc.1.add (((b.position.subtract other.position).normalize).multiply
          (1 / (distance + 0.001))), acc.2 + 1)
      else acc)
    (⟨0, 0⟩, 0)
  if 0 < acc.2 then
    ((acc.1.multiply (1 / (acc.2 : ℝ))).normalize).multiply (chaosRepulsionStrength * intensity)
  else acc.1

/-- Embeds `getZoneSeparation`, from the zone controller: same accumulation as
the chaos repulsion but at the steady radius, and normalized to unit
length (no strength factor inside). -/
def getZoneSeparation (b : Boid) (boids : List Boid) : Vector2 :=
  let acc := (otherBandBoids boids b.band).foldl
    (fun (acc : Vector2 × ℕ) other =>
      let distance := b.distanceTo other
      if 0 < distance ∧ distance < maxSeparationDistance then
        (acc.1.add (((b.position.subtract other.position).normalize).multiply
          (1 / (distance + 0.001))), acc.2 + 1)
      else acc)
    (⟨0, 0⟩, 0)
  if 0 < acc.2 then (acc.1.multiply (1 / (acc.2 : ℝ))).normalize else acc.1

/-- Embeds `getZoneAttraction`, from the zone controller: rush back toward the
band's zone when outside it, gentle centering when inside. -/
def getZoneAttraction (b : Boid) (canvasWidth : ℝ) : Vector2 :=
  let zone := zoneBoundaries b.band
  let zoneMinX := zone.min * canvasWidth
  let zoneMaxX := zone.max * canvasWidth
  let zoneCenterX := (zoneMinX + zoneMaxX) / 2
  let boidX := b.position.x
  if boidX < zoneMinX then
    let distanceToZone := zoneMinX - boidX
    let normalizedDistance := distanceToZone / canvasWidth
    let rushMultiplier := 1 + normalizedDistance * rushBackBoost * 5
    ⟨normalizedDistance * zoneAttractionStrength * rushMultiplier, 0⟩
  else if boidX > zoneMaxX then
    let distanceToZone := boidX - zoneMaxX
    let normalizedDistance := distanceToZone / canvasWidth
    let rushMultiplier := 1 + normalizedDistance * rushBackBoost * 5
    ⟨-(normalizedDistance * zoneAttractionStrength * rushMultiplier), 0⟩
  else
    let distanceToCenter := zoneCenterX - boidX
    let normalizedDistance := distanceToCenter / canvasWidth
    ⟨normalizedDistance * zoneAttractionStrength * 0.5, 0⟩

/-- The chaos pass of `Orchestrator.update` applied to one agent
(repulsion forces read only positions and bands, which the pass never
writes, so computing every force against the pre-pass population is
exact). -/
def applyChaos (boids : List Boid) (intensity : ℝ) (b : Boid) : Boid :=
  let chaosForce := getChaosRepulsion b boids intensity
  if chaosForce.length > 0 then { b with velocity := b.velocity.add chaosForce } else b

/-- The playing pass of `Orchestrator.update` applied to one agent: zone
attraction, then inter-band separation scaled by `separationStrength`. -/
def applyZone (boids : List Boid) (canvasWidth : ℝ) (b : Boid) : Boid :=
  let withAttraction :=
    let zoneAttractionForce := getZoneAttraction b canvasWidth
    if zoneAttractionForce.length > 0 then
      { b with velocity := b.velocity.add zoneAttractionForce }
    else b
  let separationForce := getZoneSeparation withAttraction boids
  if separationForce.length > 0 then
    { withAttraction with
      velocity := withAttraction.velocity.add (separationForce.multiply separationStrength) }
  else withAttraction

/-- Embeds `Orchestrator.update`, from the zone controller: edge detection,
chaos pass while the countdown is positive (decrementing it), early
return when idle, and the zone-attraction/separation pass while playing. -/
def update (s : OrchState) (boids : List Boid) (frequencyData : Option FrequencyData)
    (canvasWidth : ℝ) : OrchState × List Boid :=
  let isPlaying := frequencyData.isSome
  let chaos0 := if s.wasPlaying = true ∧ isPlaying = false then chaosDuration
    else s.chaosFramesRemaining
  let afterChaos :=
    if 0 < chaos0 then
      let intensity : ℝ := ((chaos0 - 1 : ℕ) : ℝ) / (chaosDuration : ℝ)
      (chaos0 - 1, boids.map (applyChaos boids intensity))
    else (chaos0, boids)
  if isPlaying = false then (⟨isPlaying, afterChaos.1⟩, afterChaos.2)
  else (⟨isPlaying, afterChaos.1⟩, afterChaos.2.map (applyZone boids canvasWidth))

end Orchestrator

/-- A band-`low` agent at the origin with a given velocity. -/
def agentA (v : Vector2) : Boid := ⟨⟨0, 0⟩, v, ⟨0, 0⟩, Band.low, 0⟩

/-- A band-`mid` agent at `(d, 0)` with zero velocity. -/
def agentBAt (d : ℝ) : Boid := ⟨⟨d, 0⟩, ⟨0, 0⟩, ⟨0, 0⟩, Band.mid, 0⟩

/-- A band-`mid` agent at `(1, 0)` with a given velocity. -/
def agentB (v : Vector2) : Boid := ⟨⟨1, 0⟩, v, ⟨0, 0⟩, Band.mid, 0⟩

/-- A band-`low` probe strictly left of the low zone, and a band-`high`
probe strictly right of the high zone, on a width-100 viewport. -/
def probeLeft : Boid := ⟨⟨-10, 0⟩, ⟨0, 0⟩, ⟨0, 0⟩, Band.low, 0⟩

def probeRight : Boid := ⟨⟨110, 0⟩, ⟨0, 0⟩, ⟨0, 0⟩, Band.high, 0⟩

/-- The concrete chaos-burst run: a unit-distance pair of different-band
agents, audio was playing last tick, and every subsequent
`Orchestrator.update` call is idle (no `FrequencyData`). -/
def chaosRun : ℕ → OrchState × List Boid
  | 0 => (⟨true, 0⟩, [agentA ⟨0, 0⟩, agentB ⟨0, 0⟩])
  | k + 1 => Orchestrator.update (chaosRun k).1 (chaosRun k).2 none 1000

/-- Sum of the first `min k 60` burst intensities numerators
`59, 58, ..., 0`. -/
def burstSum (k : ℕ) : ℝ :=
  ((List.range (min k 60)).map (fun j => ((59 - j : ℕ) : ℝ))).sum

/-- Division that refuses a zero denominator: used to certify that no
division in `Boid.update` can ever divide by zero (the source language's
route to NaN/Infinity). -/
def safeDiv (a b : ℝ) : Option ℝ := if b = 0 then none else some (a / b)

/-- Embeds `Vector2.normalize` with its two divisions checked. -/
def Vector2.normalizeChecked (v : Vector2) : Option Vector2 :=
  if v.length > 0 then do
    let x ← safeDiv v.x v.length
    let y ← safeDiv v.y v.length
    pure ⟨x, y⟩
  else pure v

/-- Embeds `Boid.getSeparation` with every division checked. -/
def Boid.getSeparationChecked (cfg : Config) (b : Boid) (boids : List Boid) :
    Option Vector2 := do
  let acc ← boids.foldlM
    (fun (acc : Vector2 × ℕ) other => do
      let d := b.distanceTo other
      if 0 < d ∧ d < cfg.separationDistance then do
        let n ← (b.position.subtract other.position).normalizeChecked
        let invd ← safeDiv 1 d
        pure (acc.1.add (n.multiply invd), acc.2 + 1)
      else pure acc)
    (⟨0, 0⟩, 0)
  if 0 < acc.2 then do
    let invc ← safeDiv 1 (acc.2 : ℝ)
    pure (acc.1.multiply invc)
  else pure acc.1

/-- Embeds `Boid.getCohesion` with its divisions checked. -/
def Boid.getCohesionChecked (cfg : Config) (b : Boid) (boids : List Boid) :
    Option Vector2 :=
  let acc := boids.foldl
    (fun (acc : Vector2 × ℕ) other =>
      let d := b.distanceTo other
      if 0 < d ∧ d < cfg.neighborhoodDistance then (acc.1.add other.position, acc.2 + 1)
      else acc)
    (⟨0, 0⟩, 0)
  if 0 < acc.2 then do
    let invc ← safeDiv 1 (acc.2 : ℝ)
    ((acc.1.multiply invc).subtract b.position).normalizeChecked
  else pure ⟨0, 0⟩

/-- Embeds `Boid.getAlignment` with its divisions checked. -/
def Boid.getAlignmentChecked (cfg : Config) (b : Boid) (boids : List Boid) :
    Option Vector2 :=
  let acc := boids.foldl
    (fun (acc : Vector2 × ℕ) other =>
      let d := b.distanceTo other
      if 0 < d ∧ d < cfg.neighborhoodDistance then (acc.1.add other.velocity, acc.2 + 1)
      else acc)
    (⟨0, 0⟩, 0)
  if 0 < acc.2 then do
    let invc ← safeDiv 1 (acc.2 : ℝ)
    ((acc.1.multiply invc).subtract b.velocity).normalizeChecked
  else pure ⟨0, 0⟩

/-- The speed clamp with its normalizations checked. -/
def Boid.clampSpeedChecked (cfg : Config) (v : Vector2) : Option Vector2 :=
  if v.length > cfg.maxSpeed then do
    let n ← v.normalizeChecked
    pure (n.multiply cfg.maxSpeed)
  else if 0 < v.length ∧ v.length < cfg.minVelocity then do
    let n ← v.normalizeChecked
    pure (n.multiply cfg.minVelocity)
  else pure v

/-- One re-normalized weighted force term of `Boid.update`, with its
normalization checked. -/
def Boid.forceChecked (v : Vector2) (w : ℝ) : Option Vector2 :=
  if v.length > 0 then do
    let n ← v.normalizeChecked
    pure (n.multiply w)
  else pure ⟨0, 0⟩

/-- The damped pre-clamp velocity with every division checked. -/
def Boid.dampedVelocityChecked (cfg : Config) (b : Boid) (boids : List Boid) (now : ℝ) :
    Option Vector2 := do
  let neighbors := b.getNeighbors cfg boids
  let sep ← b.getSeparationChecked cfg neighbors
  let coh ← b.getCohesionChecked cfg neighbors
  let ali ← b.getAlignmentChecked cfg neighbors
  let wander := b.getWander now
  let sepForce ← Boid.forceChecked sep (cfg.separationWeight * 0.1)
  let cohForce ← Boid.forceChecked coh (cfg.cohesionWeight * 0.1)
  let aliForce ← Boid.forceChecked ali (cfg.alignmentWeight * 0.1)
  pure (((((b.velocity.add sepForce).add cohForce).add aliForce).add wander).multiply 0.99)

/-- Embeds `Boid.update` with every division checked: it always succeeds, so no
division by zero is reachable. -/
def Boid.updateChecked (cfg : Config) (b : Boid) (boids : List Boid)
    (canvasWidth canvasHeight now r1 r2 : ℝ) : Option Boid := do
  let dv ← b.dampedVelocityChecked cfg boids now
  let v ← Boid.clampSpeedChecked cfg dv
  let p := b.position.add v
  let wx := wrapAxis canvasWidth p.x
  let wy := wrapAxis canvasHeight p.y
  let vFinal := if wx.2 || wy.2 then v.add ⟨(r1 - 0.5) * 0.5, (r2 - 0.5) * 0.5⟩ else v
  pure { b with position := ⟨wx.1, wy.1⟩, velocity := vFinal }

theorem Vector2.length_nonneg (v : Vector2) : 0 ≤ v.length :=
  Real.sqrt_nonneg _

@[simp]
theorem Vector2.length_mk_zero (a : ℝ) : (Vector2.mk a 0).length = |a| := by
  simp only [Vector2.length]
  rw [show a * a + 0 * 0 = a ^ 2 by ring, Real.sqrt_sq_eq_abs]

theorem Vector2.length_multiply (v : Vector2) (c : ℝ) :
    (v.multiply c).length = |c| * v.length := by
  simp only [Vector2.multiply, Vector2.length]
  rw [show v.x * c * (v.x * c) + v.y * c * (v.y * c) = c ^ 2 * (v.x * v.x + v.y * v.y) by ring,
    Real.sqrt_mul (sq_nonneg c), Real.sqrt_sq_eq_abs]

theorem Vector2.length_normalize {v : Vector2} (h : 0 < v.length) :
    v.normalize.length = 1 := by
  have hx : 0 ≤ v.x * v.x + v.y * v.y := add_nonneg (mul_self_nonneg _) (mul_self_nonneg _)
  have hsq : v.length * v.length = v.x * v.x + v.y * v.y := Real.mul_self_sqrt hx
  have hne : v.length ≠ 0 := ne_of_gt h
  have hnorm : v.normalize = ⟨v.x / v.length, v.y / v.length⟩ := by
    simp only [Vector2.normalize]
    rw [if_pos h]
  have hne2 : v.x * v.x + v.y * v.y ≠ 0 := by
    rw [← hsq]; exact mul_ne_zero hne hne
  rw [hnorm, Vector2.length]
  dsimp only
  rw [show v.x / Vector2.length v * (v.x / Vector2.length v) +
        v.y / Vector2.length v * (v.y / Vector2.length v) =
      (v.x * v.x + v.y * v.y) / (Vector2.length v * Vector2.length v) by
    field_simp]
  rw [hsq, div_self hne2]
  exact Real.sqrt_one

theorem Vector2.eq_zero_of_length_eq_zero {v : Vector2} (h : v.length = 0) :
    v = ⟨0, 0⟩ := by
  have hx : 0 ≤ v.x * v.x + v.y * v.y := add_nonneg (mul_self_nonneg _) (mul_self_nonneg _)
  have h0 : v.x * v.x + v.y * v.y = 0 := (Real.sqrt_eq_zero hx).mp h
  have hx0 : v.x = 0 := by nlinarith [mul_self_nonneg v.x, mul_self_nonneg v.y]
  have hy0 : v.y = 0 := by nlinarith [mul_self_nonneg v.x, mul_self_nonneg v.y]
  cases v
  simp_all

/-- The speed clamp of `Boid.update` leaves the speed either exactly zero
or inside `[minVelocity, maxSpeed]`, for any sane speed bounds. -/
theorem Boid.clampSpeed_length (cfg : Config) (v : Vector2)
    (hmin : 0 < cfg.minVelocity) (hmm : cfg.minVelocity ≤ cfg.maxSpeed) :
    (Boid.clampSpeed cfg v).length = 0 ∨
      (cfg.minVelocity ≤ (Boid.clampSpeed cfg v).length ∧
        (Boid.clampSpeed cfg v).length ≤ cfg.maxSpeed) := by
  have h0 : 0 ≤ v.length := v.length_nonneg
  have hmaxpos : 0 < cfg.maxSpeed := lt_of_lt_of_le hmin hmm
  by_cases hfast : v.length > cfg.maxSpeed
  · right
    have hpos : 0 < v.length := lt_trans hmaxpos hfast
    simp only [Boid.clampSpeed]
    rw [if_pos hfast, Vector2.length_multiply, Vector2.length_normalize hpos, mul_one,
      abs_of_pos hmaxpos]
    exact ⟨hmm, le_refl _⟩
  · by_cases hslow : 0 < v.length ∧ v.length < cfg.minVelocity
    · right
      simp only [Boid.clampSpeed]
      rw [if_neg hfast, if_pos hslow, Vector2.length_multiply,
        Vector2.length_normalize hslow.1, mul_one, abs_of_pos hmin]
      exact ⟨le_refl _, hmm⟩
    · simp only [Boid.clampSpeed]
      rw [if_neg hfast, if_neg hslow]
      push_neg at hfast hslow
      rcases eq_or_lt_of_le h0 with h | h
      · exact Or.inl h.symm
      · exact Or.inr ⟨hslow h, hfast⟩

/-- When the integrated position stays inside the viewport, the wrap
branch of `Boid.update` does not fire and the final velocity is exactly
the clamped one. -/
theorem Boid.update_velocity_of_no_wrap (cfg : Config) (b : Boid) (boids : List Boid)
    (canvasWidth canvasHeight now r1 r2 : ℝ)
    (hwrap : ¬ b.wrapOccurs cfg boids canvasWidth canvasHeight now) :
    (Boid.update cfg b boids canvasWidth canvasHeight now r1 r2).velocity =
      Boid.clampSpeed cfg (b.dampedVelocity cfg boids now) := by
  simp only [Boid.wrapOccurs, Boid.integratedPosition, not_or, not_lt] at hwrap
  obtain ⟨h1, h2, h3, h4⟩ := hwrap
  simp only [Boid.update, wrapAxis]
  simp [not_lt.mpr h1, not_lt.mpr h2, not_lt.mpr h3, not_lt.mpr h4]

/-- C1 (amended): for every agent, population and sane speed bounds,
after one `Boid.update` on a tick where no boundary wrap occurs, the
agent's speed is either exactly zero or lies within
`[minVelocity, maxSpeed]`, inclusive. (On a wrap tick the random
perturbation is added after the clamp and can leave this range.) -/
theorem Boid.update_speed_zero_or_in_range (cfg : Config) (b : Boid) (boids : List Boid)
    (canvasWidth canvasHeight now r1 r2 : ℝ)
    (hmin : 0 < cfg.minVelocity) (hmm : cfg.minVelocity ≤ cfg.maxSpeed)
    (hwrap : ¬ b.wrapOccurs cfg boids canvasWidth canvasHeight now) :
    (Boid.update cfg b boids canvasWidth canvasHeight now r1 r2).velocity.length = 0 ∨
      (cfg.minVelocity ≤
          (Boid.update cfg b boids canvasWidth canvasHeight now r1 r2).velocity.length ∧
        (Boid.update cfg b boids canvasWidth canvasHeight now r1 r2).velocity.length ≤
          cfg.maxSpeed) := by
  rw [Boid.update_velocity_of_no_wrap cfg b boids canvasWidth canvasHeight now r1 r2 hwrap]
  exact Boid.clampSpeed_length cfg _ hmin hmm

theorem wrapBoid_dampedVelocity : Boid.dampedVelocity cfgEx wrapBoid [] 0 = ⟨3.97485, 0⟩ := by
  simp only [Boid.dampedVelocity, Boid.getNeighbors, List.filter_nil, Boid.getSeparation,
    Boid.getCohesion, Boid.getAlignment, List.foldl_nil, Boid.getWander, wrapBoid]
  norm_num [Vector2.add, Vector2.multiply, Vector2.length, Real.sqrt_zero, Real.sin_zero,
    Real.cos_zero]

theorem normalize_397485 : (Vector2.mk (3.97485 : ℝ) 0).normalize = ⟨1, 0⟩ := by
  simp only [Vector2.normalize, Vector2.length_mk_zero]
  rw [if_pos (by norm_num : (0 : ℝ) < |(3.97485 : ℝ)|)]
  norm_num [abs_of_pos]

theorem wrapBoid_clamp : Boid.clampSpeed cfgEx ⟨3.97485, 0⟩ = ⟨3, 0⟩ := by
  simp only [Boid.clampSpeed, Vector2.length_mk_zero]
  rw [if_pos (by norm_num [cfgEx, abs_of_pos] : |(3.97485 : ℝ)| > cfgEx.maxSpeed), normalize_397485]
  norm_num [Vector2.multiply, cfgEx]

/-- C1 (counterexample): on a tick where the boundary wrap fires, the
random perturbation is injected after the speed clamp, so the resulting
speed (here 3.2) exceeds `maxSpeed` (here 3) and is not zero: the claim's
"including on ticks where a boundary wrap occurs" fails. -/
theorem Boid.update_speed_violates_range_on_wrap :
    0 < cfgEx.minVelocity ∧ cfgEx.minVelocity ≤ cfgEx.maxSpeed ∧
      ¬ ((Boid.update cfgEx wrapBoid [] 1000 1000 0 0.9 0.5).velocity.length = 0 ∨
        (cfgEx.minVelocity ≤ (Boid.update cfgEx wrapBoid [] 1000 1000 0 0.9 0.5).velocity.length ∧
          (Boid.update cfgEx wrapBoid [] 1000 1000 0 0.9 0.5).velocity.length ≤
            cfgEx.maxSpeed)) := by
  have hup : (Boid.update cfgEx wrapBoid [] 1000 1000 0 0.9 0.5).velocity = ⟨3.2, 0⟩ := by
    simp only [Boid.update, wrapBoid_dampedVelocity, wrapBoid_clamp]
    simp only [wrapBoid, Vector2.add, wrapAxis]
    norm_num
  refine ⟨by norm_num [cfgEx], by norm_num [cfgEx], ?_⟩
  rw [hup]
  simp only [Vector2.length_mk_zero]
  norm_num [cfgEx, abs_of_pos]

theorem calmBoid_dampedVelocity : Boid.dampedVelocity cfgEx calmBoid [] 0 = ⟨1.99485, 0⟩ := by
  simp only [Boid.dampedVelocity, Boid.getNeighbors, List.filter_nil, Boid.getSeparation,
    Boid.getCohesion, Boid.getAlignment, List.foldl_nil, Boid.getWander, calmBoid]
  norm_num [Vector2.add, Vector2.multiply, Vector2.length, Real.sqrt_zero, Real.sin_zero,
    Real.cos_zero]

theorem calmBoid_clamp : Boid.clampSpeed cfgEx ⟨1.99485, 0⟩ = ⟨1.99485, 0⟩ := by
  simp only [Boid.clampSpeed, Vector2.length_mk_zero]
  rw [if_neg (by norm_num [cfgEx, abs_of_pos] : ¬ |(1.99485 : ℝ)| > cfgEx.maxSpeed),
    if_neg (by norm_num [cfgEx, abs_of_pos] : ¬ (0 < |(1.99485 : ℝ)| ∧ |(1.99485 : ℝ)| < cfgEx.minVelocity))]

theorem calmBoid_no_wrap : ¬ Boid.wrapOccurs cfgEx calmBoid [] 1000 1000 0 := by
  simp only [Boid.wrapOccurs, Boid.integratedPosition, calmBoid_dampedVelocity, calmBoid_clamp]
  simp only [calmBoid, Vector2.add]
  norm_num

/-- C1 (witness): the amended theorem applied to a concrete isolated
agent that does not wrap this tick. -/
theorem Boid.update_speed_zero_or_in_range_witness :
    (Boid.update cfgEx calmBoid [] 1000 1000 0 0 0).velocity.length = 0 ∨
      (cfgEx.minVelocity ≤ (Boid.update cfgEx calmBoid [] 1000 1000 0 0 0).velocity.length ∧
        (Boid.update cfgEx calmBoid [] 1000 1000 0 0 0).velocity.length ≤ cfgEx.maxSpeed) :=
  Boid.update_speed_zero_or_in_range cfgEx calmBoid [] 1000 1000 0 0 0
    (by norm_num [cfgEx]) (by norm_num [cfgEx]) calmBoid_no_wrap

/-- C3: the emitted beat flag holds iff the amplitude spike ratio
strictly exceeds 1.5 and the amplitude strictly exceeds 0.1; boundary
values (ratio exactly 1.5, amplitude exactly 0.1) do not fire; and the
persistent previous amplitude is unconditionally overwritten with the
current amplitude on every `processAudio` call. -/
theorem Orchestra.beat_iff_spike_and_prev_updated (s : OrchestraState) (buffer : List ℕ) :
    ((Orchestra.processAudio s buffer).2.beat ↔
      ((Orchestra.processAudio s buffer).2.amplitude / (s.previousAmplitude + 0.001) > 1.5 ∧
        (Orchestra.processAudio s buffer).2.amplitude > 0.1)) ∧
    (Orchestra.processAudio s buffer).1.previousAmplitude =
      (Orchestra.processAudio s buffer).2.amplitude ∧
    (∀ cur prev : ℝ, cur / (prev + 0.001) = 1.5 → ¬ Orchestra.detectBeat cur prev) ∧
    (∀ cur : ℝ, ∀ prev : ℝ, cur = 0.1 → ¬ Orchestra.detectBeat cur prev) := by
  refine ⟨?_, rfl, ?_, ?_⟩
  · simp [Orchestra.processAudio, Orchestra.detectBeat, Orchestra.beatThreshold]
  · intro cur prev h hb
    rw [Orchestra.detectBeat, Orchestra.beatThreshold, h] at hb
    exact lt_irrefl _ hb.1
  · intro cur prev h hb
    rw [Orchestra.detectBeat, h] at hb
    exact lt_irrefl _ hb.2

/-- C3 (witness): boundary amplitude 0.1 does not fire, and the previous
amplitude is overwritten on a concrete call. -/
theorem Orchestra.beat_iff_spike_witness :
    ¬ Orchestra.detectBeat 0.1 0.5 ∧
      (Orchestra.processAudio ⟨List.replicate 15 0, 0⟩ []).1.previousAmplitude =
        (Orchestra.processAudio ⟨List.replicate 15 0, 0⟩ []).2.amplitude :=
  ⟨(Orchestra.beat_iff_spike_and_prev_updated ⟨List.replicate 15 0, 0⟩ []).2.2.2 0.1 0.5 rfl,
    (Orchestra.beat_iff_spike_and_prev_updated ⟨List.replicate 15 0, 0⟩ []).2.1⟩

/-- C6: the exponential smoothing step leaves every updated value between
the previous smoothed value and the raw input, inclusive. -/
theorem Orchestra.smoothed_between_prev_and_raw (smoothed raw : List ℝ) (i : ℕ)
    (h1 : i < smoothed.length) (h2 : i < raw.length) :
    min smoothed[i] raw[i] ≤ (Orchestra.smoothFrequencyData smoothed raw).getD i 0 ∧
      (Orchestra.smoothFrequencyData smoothed raw).getD i 0 ≤ max smoothed[i] raw[i] := by
  have hlen : i < (Orchestra.smoothFrequencyData smoothed raw).length := by
    simp only [Orchestra.smoothFrequencyData, List.length_zipWith, lt_min_iff]
    exact ⟨h1, h2⟩
  rw [List.getD_eq_getElem _ _ hlen]
  have hval : (Orchestra.smoothFrequencyData smoothed raw)[i] =
      smoothed[i] * (1 - Orchestra.smoothFactor) + raw[i] * Orchestra.smoothFactor := by
    simp [Orchestra.smoothFrequencyData]
  rw [hval, Orchestra.smoothFactor]
  constructor
  · rcases le_total smoothed[i] raw[i] with h | h
    · rw [min_eq_left h]; nlinarith
    · rw [min_eq_right h]; nlinarith
  · rcases le_total smoothed[i] raw[i] with h | h
    · rw [max_eq_right h]; nlinarith
    · rw [max_eq_left h]; nlinarith

theorem Orchestra.subBandFold_le (buffer : List ℕ) (hb : ∀ v ∈ buffer, v ≤ 255) :
    ∀ (len s acc : ℕ),
      (List.range' s len).foldl
          (fun acc bin => if bin < buffer.length then acc + buffer.getD bin 0 else acc) acc ≤
        acc + 255 * len := by
  intro len
  induction len with
  | zero => intro s acc; simp
  | succ n ih =>
    intro s acc
    rw [List.range'_succ, List.foldl_cons]
    refine le_trans (ih (s + 1) _) ?_
    by_cases h : s < buffer.length
    · rw [if_pos h]
      have hv : buffer.getD s 0 ≤ 255 := by
        rw [List.getD_eq_getElem buffer 0 h]
        exact hb _ (List.getElem_mem h)
      omega
    · rw [if_neg h]; omega

/-- Each raw sub-band energy of `extractSubBands` lies in `[0,1]` for an
in-range byte buffer (in the real-number model, where a division by a
non-positive width of an empty bin range yields 0). -/
theorem Orchestra.subBandEnergy_mem (buffer : List ℕ) (hb : ∀ v ∈ buffer, v ≤ 255) (z i : ℕ) :
    Orchestra.subBandEnergy buffer z i ∈ Set.Icc (0 : ℝ) 1 := by
  simp only [Orchestra.subBandEnergy]
  by_cases h : Orchestra.binEnd buffer.length z i ≤ Orchestra.binStart buffer.length z i
  · have hlen : Orchestra.binEnd buffer.length z i - Orchestra.binStart buffer.length z i = 0 :=
      Nat.sub_eq_zero_of_le h
    have hzero : Orchestra.subBandSum buffer z i = 0 := by
      simp [Orchestra.subBandSum, hlen]
    rw [hzero]
    norm_num
  · push_neg at h
    have hsum : Orchestra.subBandSum buffer z i ≤
        255 * (Orchestra.binEnd buffer.length z i - Orchestra.binStart buffer.length z i) := by
      have hf := Orchestra.subBandFold_le buffer hb
        (Orchestra.binEnd buffer.length z i - Orchestra.binStart buffer.length z i)
        (Orchestra.binStart buffer.length z i) 0
      simpa [Orchestra.subBandSum] using hf
    have hcast : ((Orchestra.binEnd buffer.length z i - Orchestra.binStart buffer.length z i : ℕ) : ℝ) =
        (Orchestra.binEnd buffer.length z i : ℝ) - (Orchestra.binStart buffer.length z i : ℝ) :=
      Nat.cast_sub (le_of_lt h)
    have hw : (0 : ℝ) <
        (Orchestra.binEnd buffer.length z i : ℝ) - (Orchestra.binStart buffer.length z i : ℝ) := by
      rw [← hcast]
      exact_mod_cast Nat.sub_pos_of_lt h
    have hsumR : (Orchestra.subBandSum buffer z i : ℝ) ≤
        255 * ((Orchestra.binEnd buffer.length z i : ℝ) - (Orchestra.binStart buffer.length z i : ℝ)) := by
      rw [← hcast]
      exact_mod_cast hsum
    constructor
    · exact div_nonneg (div_nonneg (Nat.cast_nonneg _) (le_of_lt hw)) (by norm_num)
    · rw [div_le_one (by norm_num : (0 : ℝ) < 255), div_le_iff₀ hw]
      linarith

theorem Orchestra.extract_mem (buffer : List ℕ) (hb : ∀ v ∈ buffer, v ≤ 255) :
    ∀ x ∈ Orchestra.extractSubBands buffer, x ∈ Set.Icc (0 : ℝ) 1 := by
  intro x hx
  simp only [Orchestra.extractSubBands, List.mem_map] at hx
  obtain ⟨k, _, rfl⟩ := hx
  exact Orchestra.subBandEnergy_mem buffer hb _ _

theorem Orchestra.smooth_mem {s raw : List ℝ}
    (hs : ∀ x ∈ s, x ∈ Set.Icc (0 : ℝ) 1) (hr : ∀ x ∈ raw, x ∈ Set.Icc (0 : ℝ) 1) :
    ∀ x ∈ Orchestra.smoothFrequencyData s raw, x ∈ Set.Icc (0 : ℝ) 1 := by
  intro x hx
  rw [List.mem_iff_getElem] at hx
  obtain ⟨i, hi, rfl⟩ := hx
  have hmin : i < min s.length raw.length := by
    simpa [Orchestra.smoothFrequencyData, List.length_zipWith] using hi
  have hi1 : i < s.length := lt_of_lt_of_le hmin (min_le_left _ _)
  have hi2 : i < raw.length := lt_of_lt_of_le hmin (min_le_right _ _)
  have h1 := Set.mem_Icc.mp (hs _ (List.getElem_mem hi1))
  have h2 := Set.mem_Icc.mp (hr _ (List.getElem_mem hi2))
  have hval : (Orchestra.smoothFrequencyData s raw)[i] =
      s[i] * (1 - Orchestra.smoothFactor) + raw[i] * Orchestra.smoothFactor := by
    simp [Orchestra.smoothFrequencyData]
  rw [hval, Orchestra.smoothFactor]
  constructor
  · nlinarith [h1.1, h1.2, h2.1, h2.2]
  · nlinarith [h1.1, h1.2, h2.1, h2.2]

theorem Orchestra.avg_mem {l : List ℝ} (hne : l.length ≠ 0)
    (h : ∀ x ∈ l, x ∈ Set.Icc (0 : ℝ) 1) : l.sum / (l.length : ℝ) ∈ Set.Icc (0 : ℝ) 1 := by
  have hpos : (0 : ℝ) < (l.length : ℝ) := by
    exact_mod_cast Nat.pos_of_ne_zero hne
  constructor
  · exact div_nonneg (List.sum_nonneg fun x hx => (Set.mem_Icc.mp (h x hx)).1) (le_of_lt hpos)
  · rw [div_le_one hpos]
    have := List.sum_le_card_nsmul l 1 fun x hx => (Set.mem_Icc.mp (h x hx)).2
    simpa using this

theorem Orchestra.createSubBandData_bounds (zoneIdx : ℕ) (smoothed : List ℝ)
    (hz : zoneIdx < 3) (hlen : smoothed.length = 15)
    (h : ∀ x ∈ smoothed, x ∈ Set.Icc (0 : ℝ) 1) :
    (∀ e ∈ (Orchestra.createSubBandData zoneIdx smoothed).energies, e ∈ Set.Icc (0 : ℝ) 1) ∧
      (Orchestra.createSubBandData zoneIdx smoothed).averageEnergy ∈ Set.Icc (0 : ℝ) 1 := by
  have hmem : ∀ e ∈ (smoothed.drop (zoneIdx * 5)).take 5, e ∈ Set.Icc (0 : ℝ) 1 :=
    fun e he => h e (List.mem_of_mem_drop (List.mem_of_mem_take he))
  have hlen5 : ((smoothed.drop (zoneIdx * 5)).take 5).length = 5 := by
    simp only [List.length_take, List.length_drop, hlen]
    omega
  constructor
  · simpa [Orchestra.createSubBandData] using hmem
  · have := Orchestra.avg_mem (l := (smoothed.drop (zoneIdx * 5)).take 5)
      (by rw [hlen5]; norm_num) hmem
    simpa [Orchestra.createSubBandData] using this

/-- C4 (amended): at the analyzer's actual spectral buffer length
(1024 bins, from FFT size 2048), every emitted sub-band energy and
per-zone average energy lies in `[0,1]`, and no sub-band bin range is
degenerate (so no energy division has a zero denominator). For other
buffer lengths the division is NOT guarded and its denominator can be
zero (producing NaN in the source language). -/
theorem Orchestra.emitted_energies_unit (s : OrchestraState) (buffer : List ℕ)
    (hlen : buffer.length = 1024) (hb : ∀ v ∈ buffer, v ≤ 255)
    (hsl : s.smoothedSubBands.length = 15)
    (hs : ∀ x ∈ s.smoothedSubBands, x ∈ Set.Icc (0 : ℝ) 1) :
    (∀ zd ∈ [(Orchestra.processAudio s buffer).2.zones.low,
        (Orchestra.processAudio s buffer).2.zones.mid,
        (Orchestra.processAudio s buffer).2.zones.high],
      (∀ e ∈ zd.energies, e ∈ Set.Icc (0 : ℝ) 1) ∧
        zd.averageEnergy ∈ Set.Icc (0 : ℝ) 1) ∧
    (∀ z, z < 3 → ∀ i, i < 5 →
      Orchestra.binEnd 1024 z i ≠ Orchestra.binStart 1024 z i) := by
  constructor
  · have hraw := Orchestra.extract_mem buffer hb
    have hsm := Orchestra.smooth_mem hs hraw
    have hsm_len :
        (Orchestra.smoothFrequencyData s.smoothedSubBands
          (Orchestra.extractSubBands buffer)).length = 15 := by
      simp [Orchestra.smoothFrequencyData, List.length_zipWith, hsl,
        Orchestra.extractSubBands]
    intro zd hzd
    simp only [List.mem_cons, List.not_mem_nil, or_false] at hzd
    rcases hzd with h | h | h <;> rw [h] <;>
      exact Orchestra.createSubBandData_bounds _ _ (by norm_num) hsm_len hsm
  · decide

/-- C4 (witness): the amended theorem applied to the all-zero 1024-bin
buffer and the freshly constructed analyzer state. -/
theorem Orchestra.emitted_energies_unit_witness :
    (∀ zd ∈ [(Orchestra.processAudio ⟨List.replicate 15 0, 0⟩ (List.replicate 1024 0)).2.zones.low,
        (Orchestra.processAudio ⟨List.replicate 15 0, 0⟩ (List.replicate 1024 0)).2.zones.mid,
        (Orchestra.processAudio ⟨List.replicate 15 0, 0⟩ (List.replicate 1024 0)).2.zones.high],
      (∀ e ∈ zd.energies, e ∈ Set.Icc (0 : ℝ) 1) ∧
        zd.averageEnergy ∈ Set.Icc (0 : ℝ) 1) ∧
    (∀ z, z < 3 → ∀ i, i < 5 →
      Orchestra.binEnd 1024 z i ≠ Orchestra.binStart 1024 z i) :=
  Orchestra.emitted_energies_unit ⟨List.replicate 15 0, 0⟩ (List.replicate 1024 0)
    (by simp only [List.length_replicate])
    (by intro v hv; rw [List.eq_of_mem_replicate hv]; norm_num)
    (by simp only [List.length_replicate])
    (by intro x hx; rw [List.eq_of_mem_replicate hx]; exact ⟨le_refl 0, by norm_num⟩)

/-- C4 (counterexample): the claim quantifies over every well-formed
(non-empty, in-range) spectral buffer, but for a 400-bin buffer the last
sub-band of the low zone has `binStart = binEnd = 4`: its energy division
has denominator zero, which is not guarded (NaN in the source language). -/
theorem Orchestra.degenerate_subband_division :
    (List.replicate 400 (0 : ℕ)).length ≠ 0 ∧
      (∀ v ∈ List.replicate 400 (0 : ℕ), v ≤ 255) ∧
      (List.replicate 400 (0 : ℕ)).length = 400 ∧
      Orchestra.binEnd 400 0 4 = Orchestra.binStart 400 0 4 ∧
      ((Orchestra.binEnd 400 0 4 : ℝ) - (Orchestra.binStart 400 0 4 : ℝ)) = 0 := by
  refine ⟨by rw [List.length_replicate]; norm_num,
    by intro v hv; rw [List.eq_of_mem_replicate hv]; norm_num,
    by rw [List.length_replicate], by decide, ?_⟩
  have h : Orchestra.binEnd 400 0 4 = Orchestra.binStart 400 0 4 := by decide
  rw [h, sub_self]

/-- C6 (witness): the smoothing step applied to concrete values 0.5 and
raw 1 lands between them. -/
theorem Orchestra.smoothed_between_witness :
    min (0.5 : ℝ) 1 ≤ (Orchestra.smoothFrequencyData [0.5] [1]).getD 0 0 ∧
      (Orchestra.smoothFrequencyData [0.5] [1]).getD 0 0 ≤ max (0.5 : ℝ) 1 := by
  have h := Orchestra.smoothed_between_prev_and_raw [0.5] [1] 0 (by simp) (by simp)
  simpa using h

theorem Vector2.normalize_mk_neg {a : ℝ} (ha : a < 0) :
    (Vector2.mk a 0).normalize = ⟨-1, 0⟩ := by
  simp only [Vector2.normalize, Vector2.length_mk_zero]
  rw [if_pos (abs_pos.mpr (ne_of_lt ha)), abs_of_neg ha]
  have hne : a ≠ 0 := ne_of_lt ha
  congr 1
  · field_simp
  · simp

theorem Vector2.normalize_mk_pos {a : ℝ} (ha : 0 < a) :
    (Vector2.mk a 0).normalize = ⟨1, 0⟩ := by
  simp only [Vector2.normalize, Vector2.length_mk_zero]
  rw [if_pos (abs_pos.mpr (ne_of_gt ha)), abs_of_pos ha]
  have hne : a ≠ 0 := ne_of_gt ha
  congr 1
  · field_simp
  · simp

theorem Vector2.add_zero_mk (v : Vector2) : v.add ⟨0, 0⟩ = v := by
  cases v
  simp [Vector2.add]

/-- C7: while playing, a band-`low` agent strictly left of its zone's
left edge receives a strictly positive zone-attraction x-force, and an
agent of any band strictly right of its zone's right edge receives a
strictly negative one, for every positive viewport width. -/
theorem Orchestrator.zoneAttraction_sign (b : Boid) (canvasWidth : ℝ)
    (hw : 0 < canvasWidth) :
    (b.band = Band.low →
      b.position.x < (Orchestrator.zoneBoundaries Band.low).min * canvasWidth →
      0 < (Orchestrator.getZoneAttraction b canvasWidth).x) ∧
    (b.position.x > (Orchestrator.zoneBoundaries b.band).max * canvasWidth →
      (Orchestrator.getZoneAttraction b canvasWidth).x < 0) := by
  constructor
  · intro hb hx
    simp only [Orchestrator.zoneBoundaries] at hx
    simp only [Orchestrator.getZoneAttraction, hb, Orchestrator.zoneBoundaries]
    rw [if_pos hx]
    have hnd : 0 < (0 * canvasWidth - b.position.x) / canvasWidth :=
      div_pos (by linarith) hw
    simp only [Orchestrator.zoneAttractionStrength, Orchestrator.rushBackBoost]
    nlinarith
  · intro hx
    rcases hband : b.band with _ | _ | _
    · rw [hband] at hx
      simp only [Orchestrator.zoneBoundaries] at hx
      simp only [Orchestrator.getZoneAttraction, hband, Orchestrator.zoneBoundaries]
      rw [if_neg (show ¬ b.position.x < 0 * canvasWidth by push_neg; nlinarith), if_pos hx]
      have hnd : 0 < (b.position.x - 0.33 * canvasWidth) / canvasWidth :=
        div_pos (by linarith) hw
      simp only [Orchestrator.zoneAttractionStrength, Orchestrator.rushBackBoost]
      nlinarith [hnd]
    · rw [hband] at hx
      simp only [Orchestrator.zoneBoundaries] at hx
      simp only [Orchestrator.getZoneAttraction, hband, Orchestrator.zoneBoundaries]
      rw [if_neg (show ¬ b.position.x < 0.33 * canvasWidth by push_neg; nlinarith), if_pos hx]
      have hnd : 0 < (b.position.x - 0.66 * canvasWidth) / canvasWidth :=
        div_pos (by linarith) hw
      simp only [Orchestrator.zoneAttractionStrength, Orchestrator.rushBackBoost]
      nlinarith [hnd]
    · rw [hband] at hx
      simp only [Orchestrator.zoneBoundaries] at hx
      simp only [Orchestrator.getZoneAttraction, hband, Orchestrator.zoneBoundaries]
      rw [if_neg (show ¬ b.position.x < 0.66 * canvasWidth by push_neg; nlinarith), if_pos hx]
      have hnd : 0 < (b.position.x - 1.0 * canvasWidth) / canvasWidth :=
        div_pos (by linarith) hw
      simp only [Orchestrator.zoneAttractionStrength, Orchestrator.rushBackBoost]
      nlinarith [hnd]

/-- C7 (witness): the sign theorem applied to the two concrete probes. -/
theorem Orchestrator.zoneAttraction_sign_witness :
    0 < (Orchestrator.getZoneAttraction probeLeft 100).x ∧
      (Orchestrator.getZoneAttraction probeRight 100).x < 0 :=
  ⟨(Orchestrator.zoneAttraction_sign probeLeft 100 (by norm_num)).1 rfl
      (by norm_num [Orchestrator.zoneBoundaries, probeLeft]),
    (Orchestrator.zoneAttraction_sign probeRight 100 (by norm_num)).2
      (by norm_num [Orchestrator.zoneBoundaries, probeRight])⟩

theorem Orchestrator.applyChaos_pose (src : List Boid) (intensity : ℝ) (b : Boid) :
    (Orchestrator.applyChaos src intensity b).position = b.position ∧
      (Orchestrator.applyChaos src intensity b).band = b.band ∧
      (Orchestrator.applyChaos src intensity b).wanderSeed = b.wanderSeed := by
  simp only [Orchestrator.applyChaos]
  split <;> exact ⟨rfl, rfl, rfl⟩

theorem Orchestrator.applyZone_pose (src : List Boid) (canvasWidth : ℝ) (b : Boid) :
    (Orchestrator.applyZone src canvasWidth b).position = b.position ∧
      (Orchestrator.applyZone src canvasWidth b).band = b.band ∧
      (Orchestrator.applyZone src canvasWidth b).wanderSeed = b.wanderSeed := by
  simp only [Orchestrator.applyZone]
  split <;> split <;> exact ⟨rfl, rfl, rfl⟩

/-- C10: one `Orchestrator.update` call leaves every agent's position,
band and wander seed unchanged (and preserves the population's length and
order); only velocities and the controller's own state change. -/
theorem Orchestrator.update_mutates_only_velocity (s : OrchState) (boids : List Boid)
    (frequencyData : Option FrequencyData) (canvasWidth : ℝ) :
    ((Orchestrator.update s boids frequencyData canvasWidth).2).map
        (fun b => (b.position, b.band, b.wanderSeed)) =
      boids.map (fun b => (b.position, b.band, b.wanderSeed)) := by
  simp only [Orchestrator.update]
  split_ifs <;>
    simp [Orchestrator.applyChaos_pose, Orchestrator.applyZone_pose]

/-- Idle call on a quiet controller changes nothing (general helper). -/
theorem Orchestrator.update_idle_zero (boids : List Boid) (canvasWidth : ℝ) :
    Orchestrator.update ⟨false, 0⟩ boids none canvasWidth = (⟨false, 0⟩, boids) := by
  simp [Orchestrator.update]

theorem Orchestrator.otherBands_pairA (vA vB : Vector2) :
    Orchestrator.otherBandBoids [agentA vA, agentB vB] (agentA vA).band = [agentB vB] := by
  simp [Orchestrator.otherBandBoids, Orchestrator.getOtherBands, Orchestrator.bandGroup,
    agentA, agentB]

theorem Orchestrator.otherBands_pairB (vA vB : Vector2) :
    Orchestrator.otherBandBoids [agentA vA, agentB vB] (agentB vB).band = [agentA vA] := by
  simp [Orchestrator.otherBandBoids, Orchestrator.getOtherBands, Orchestrator.bandGroup,
    agentA, agentB]

theorem distance_pairA (vA vB : Vector2) : (agentA vA).distanceTo (agentB vB) = 1 := by
  simp only [Boid.distanceTo, agentA, agentB]
  rw [Real.sqrt_eq_one]
  norm_num

theorem distance_pairB (vA vB : Vector2) : (agentB vB).distanceTo (agentA vA) = 1 := by
  simp only [Boid.distanceTo, agentA, agentB]
  rw [Real.sqrt_eq_one]
  norm_num

theorem subtract_pairA (vA vB : Vector2) :
    (agentA vA).position.subtract (agentB vB).position = ⟨-1, 0⟩ := by
  simp only [Vector2.subtract, agentA, agentB]
  norm_num

theorem subtract_pairB (vA vB : Vector2) :
    (agentB vB).position.subtract (agentA vA).position = ⟨1, 0⟩ := by
  simp only [Vector2.subtract, agentA, agentB]
  norm_num

/-- The chaos repulsion on the low agent of the unit-distance pair: a
unit vector away from the mid agent, scaled by strength times intensity. -/
theorem Orchestrator.chaosRepulsion_pairA (vA vB : Vector2) (intensity : ℝ) :
    Orchestrator.getChaosRepulsion (agentA vA) [agentA vA, agentB vB] intensity =
      ⟨-(1.5 * intensity), 0⟩ := by
  simp only [Orchestrator.getChaosRepulsion, Orchestrator.otherBands_pairA,
    List.foldl_cons, List.foldl_nil, distance_pairA, subtract_pairA]
  rw [if_pos (by norm_num [Orchestrator.chaosRepulsionDistance] :
    (0 : ℝ) < 1 ∧ (1 : ℝ) < Orchestrator.chaosRepulsionDistance)]
  rw [Vector2.normalize_mk_neg (by norm_num : (-1 : ℝ) < 0)]
  simp only [Vector2.multiply, Vector2.add]
  norm_num
  rw [Vector2.normalize_mk_neg (by norm_num : -(1000 / 1001 : ℝ) < 0)]
  simp only [Vector2.multiply, Orchestrator.chaosRepulsionStrength]
  norm_num

/-- The chaos repulsion on the mid agent of the unit-distance pair. -/
theorem Orchestrator.chaosRepulsion_pairB (vA vB : Vector2) (intensity : ℝ) :
    Orchestrator.getChaosRepulsion (agentB vB) [agentA vA, agentB vB] intensity =
      ⟨1.5 * intensity, 0⟩ := by
  simp only [Orchestrator.getChaosRepulsion, Orchestrator.otherBands_pairB,
    List.foldl_cons, List.foldl_nil, distance_pairB, subtract_pairB]
  rw [if_pos (by norm_num [Orchestrator.chaosRepulsionDistance] :
    (0 : ℝ) < 1 ∧ (1 : ℝ) < Orchestrator.chaosRepulsionDistance)]
  rw [Vector2.normalize_mk_pos (by norm_num : (0 : ℝ) < 1)]
  simp only [Vector2.multiply, Vector2.add]
  norm_num
  rw [Vector2.normalize_mk_pos (by norm_num : (0 : ℝ) < (1000 / 1001 : ℝ))]
  simp only [Vector2.multiply, Orchestrator.chaosRepulsionStrength]
  norm_num

theorem Orchestrator.applyChaos_pairA (vA vB : Vector2) {intensity : ℝ}
    (h : 0 ≤ intensity) :
    Orchestrator.applyChaos [agentA vA, agentB vB] intensity (agentA vA) =
      agentA (vA.add ⟨-(1.5 * intensity), 0⟩) := by
  simp only [Orchestrator.applyChaos, Orchestrator.chaosRepulsion_pairA,
    Vector2.length_mk_zero]
  rcases eq_or_lt_of_le h with h0 | hpos
  · rw [if_neg (by rw [← h0]; norm_num)]
    rw [← h0]
    norm_num [Vector2.add_zero_mk]
  · rw [if_pos (by rw [abs_neg, abs_of_pos (by linarith)]; linarith)]
    simp [agentA]

theorem Orchestrator.applyChaos_pairB (vA vB : Vector2) {intensity : ℝ}
    (h : 0 ≤ intensity) :
    Orchestrator.applyChaos [agentA vA, agentB vB] intensity (agentB vB) =
      agentB (vB.add ⟨1.5 * intensity, 0⟩) := by
  simp only [Orchestrator.applyChaos, Orchestrator.chaosRepulsion_pairB,
    Vector2.length_mk_zero]
  rcases eq_or_lt_of_le h with h0 | hpos
  · rw [if_neg (by rw [← h0]; norm_num)]
    rw [← h0]
    norm_num [Vector2.add_zero_mk]
  · rw [if_pos (by rw [abs_of_pos (by linarith)]; linarith)]
    simp [agentB]

/-- First idle tick after playing: the falling edge arms the countdown to
60, the chaos pass immediately decrements it to 59 and applies intensity
59/60 to both agents of the pair. -/
theorem Orchestrator.update_pair_falling_edge (vA vB : Vector2) (canvasWidth : ℝ) :
    Orchestrator.update ⟨true, 0⟩ [agentA vA, agentB vB] none canvasWidth =
      (⟨false, 59⟩, [agentA (vA.add ⟨-(1.5 * (59 / 60)), 0⟩),
        agentB (vB.add ⟨1.5 * (59 / 60), 0⟩)]) := by
  simp only [Orchestrator.update, Option.isSome_none]
  norm_num [Orchestrator.chaosDuration]
  rw [Orchestrator.applyChaos_pairA vA vB (by norm_num),
    Orchestrator.applyChaos_pairB vA vB (by norm_num)]
  norm_num

/-- Idle tick with a positive countdown `c` and no falling edge: the
countdown drops to `c - 1` and intensity `(c-1)/60` is applied. -/
theorem Orchestrator.update_pair_draining (vA vB : Vector2) (canvasWidth : ℝ) (c : ℕ)
    (hc : 0 < c) :
    Orchestrator.update ⟨false, c⟩ [agentA vA, agentB vB] none canvasWidth =
      (⟨false, c - 1⟩, [agentA (vA.add ⟨-(1.5 * (((c - 1 : ℕ) : ℝ) / 60)), 0⟩),
        agentB (vB.add ⟨1.5 * (((c - 1 : ℕ) : ℝ) / 60), 0⟩)]) := by
  simp only [Orchestrator.update, Option.isSome_none]
  norm_num [Orchestrator.chaosDuration]
  rw [Orchestrator.applyChaos_pairA vA vB (by positivity),
    Orchestrator.applyChaos_pairB vA vB (by positivity), if_pos hc]
  norm_num

theorem Orchestrator.otherBands_sepA (d : ℝ) :
    Orchestrator.otherBandBoids [agentA ⟨0, 0⟩, agentBAt d] (agentA ⟨0, 0⟩).band =
      [agentBAt d] := by
  simp [Orchestrator.otherBandBoids, Orchestrator.getOtherBands, Orchestrator.bandGroup,
    agentA, agentBAt]

theorem Orchestrator.otherBands_sepB (d : ℝ) :
    Orchestrator.otherBandBoids [agentA ⟨0, 0⟩, agentBAt d] (agentBAt d).band =
      [agentA ⟨0, 0⟩] := by
  simp [Orchestrator.otherBandBoids, Orchestrator.getOtherBands, Orchestrator.bandGroup,
    agentA, agentBAt]

theorem distance_sepA (d : ℝ) (h0 : 0 < d) :
    (agentA ⟨0, 0⟩).distanceTo (agentBAt d) = d := by
  simp only [Boid.distanceTo, agentA, agentBAt]
  rw [show ((0 : ℝ) - d) ^ 2 + ((0 : ℝ) - 0) ^ 2 = d ^ 2 by ring, Real.sqrt_sq (le_of_lt h0)]

theorem distance_sepB (d : ℝ) (h0 : 0 < d) :
    (agentBAt d).distanceTo (agentA ⟨0, 0⟩) = d := by
  simp only [Boid.distanceTo, agentA, agentBAt]
  rw [show (d - (0 : ℝ)) ^ 2 + ((0 : ℝ) - 0) ^ 2 = d ^ 2 by ring, Real.sqrt_sq (le_of_lt h0)]

/-- The inter-band separation force on the low agent of a pair at
distance `d` inside the radius: the unit vector away from the mid agent,
independent of `d`. -/
theorem Orchestrator.zoneSeparation_pairA (d : ℝ) (h0 : 0 < d) (h150 : d < 150) :
    Orchestrator.getZoneSeparation (agentA ⟨0, 0⟩) [agentA ⟨0, 0⟩, agentBAt d] = ⟨-1, 0⟩ := by
  have hsub : (agentA ⟨0, 0⟩).position.subtract (agentBAt d).position = ⟨-d, 0⟩ := by
    simp only [Vector2.subtract, agentA, agentBAt]
    norm_num
  simp only [Orchestrator.getZoneSeparation, Orchestrator.otherBands_sepA,
    List.foldl_cons, List.foldl_nil, distance_sepA d h0, hsub]
  rw [if_pos (show (0 : ℝ) < d ∧ d < Orchestrator.maxSeparationDistance from ⟨h0, h150⟩)]
  rw [Vector2.normalize_mk_neg (neg_lt_zero.mpr h0)]
  norm_num [Vector2.multiply, Vector2.add]
  rw [Vector2.normalize_mk_neg (neg_lt_zero.mpr (by positivity : (0 : ℝ) < (d + 1 / 1000)⁻¹))]

/-- The inter-band separation force on the mid agent of the pair. -/
theorem Orchestrator.zoneSeparation_pairB (d : ℝ) (h0 : 0 < d) (h150 : d < 150) :
    Orchestrator.getZoneSeparation (agentBAt d) [agentA ⟨0, 0⟩, agentBAt d] = ⟨1, 0⟩ := by
  have hsub : (agentBAt d).position.subtract (agentA ⟨0, 0⟩).position = ⟨d, 0⟩ := by
    simp only [Vector2.subtract, agentA, agentBAt]
    norm_num
  simp only [Orchestrator.getZoneSeparation, Orchestrator.otherBands_sepB,
    List.foldl_cons, List.foldl_nil, distance_sepB d h0, hsub]
  rw [if_pos (show (0 : ℝ) < d ∧ d < Orchestrator.maxSeparationDistance from ⟨h0, h150⟩)]
  rw [Vector2.normalize_mk_pos h0]
  norm_num [Vector2.multiply, Vector2.add]
  rw [Vector2.normalize_mk_pos (by positivity : (0 : ℝ) < (d + 1 / 1000)⁻¹)]

theorem burstSum_succ (k : ℕ) (h : k < 60) :
    burstSum (k + 1) = burstSum k + ((59 - k : ℕ) : ℝ) := by
  have h1 : min (k + 1) 60 = k + 1 := by omega
  have h2 : min k 60 = k := by omega
  simp [burstSum, h1, h2, List.range_succ]

theorem burstSum_stable (k : ℕ) (h : 60 ≤ k) : burstSum (k + 1) = burstSum k := by
  have h1 : min (k + 1) 60 = 60 := by omega
  have h2 : min k 60 = 60 := by omega
  simp [burstSum, h1, h2]

/-- Closed form of the chaos-burst run: the countdown is armed to 60 and
drained by one per tick, and each tick adds `1.5 * intensity` along the
axis away from the other agent, with intensity `(60 - t)/60` on tick `t`. -/
theorem chaosRun_closed (k : ℕ) :
    chaosRun k = (⟨decide (k = 0), if k = 0 then 0 else 60 - k⟩,
      [agentA ⟨-(1.5 / 60) * burstSum k, 0⟩, agentB ⟨1.5 / 60 * burstSum k, 0⟩]) := by
  induction k with
  | zero =>
    simp only [chaosRun]
    norm_num [burstSum, agentA, agentB]
  | succ k ih =>
    show Orchestrator.update (chaosRun k).1 (chaosRun k).2 none 1000 = _
    by_cases h0 : k = 0
    · subst h0
      rw [show chaosRun 0 = (⟨true, 0⟩, [agentA ⟨0, 0⟩, agentB ⟨0, 0⟩]) from rfl]
      rw [Orchestrator.update_pair_falling_edge,
        show burstSum 1 = 59 by norm_num [burstSum, List.range_succ]]
      simp only [agentA, agentB, Vector2.add, Prod.mk.injEq, OrchState.mk.injEq,
        List.cons.injEq, Boid.mk.injEq, Vector2.mk.injEq]
      norm_num
    · rw [ih]
      by_cases h60 : k < 60
      · have hc : 0 < 60 - k := by omega
        rw [show (decide (k = 0)) = false by simp [h0], if_neg h0,
          Orchestrator.update_pair_draining _ _ _ _ hc]
        have hn1 : 60 - k - 1 = 59 - k := by omega
        have hif : (if k + 1 = 0 then 0 else 60 - (k + 1)) = 59 - k := by
          rw [if_neg (Nat.succ_ne_zero k)]
          omega
        rw [hn1, hif, burstSum_succ k h60, show (decide (k + 1 = 0)) = false by simp]
        simp only [agentA, agentB, Vector2.add, Prod.mk.injEq, OrchState.mk.injEq,
          List.cons.injEq, Boid.mk.injEq, Vector2.mk.injEq]
        norm_num
        constructor <;> ring
      · have hz : 60 - k = 0 := by omega
        have hif : (if k + 1 = 0 then 0 else 60 - (k + 1)) = 0 := by
          rw [if_neg (Nat.succ_ne_zero k)]
          omega
        rw [show (decide (k = 0)) = false by simp [h0], if_neg h0, hz,
          Orchestrator.update_idle_zero, burstSum_stable k (by omega), hif,
          show (decide (k + 1 = 0)) = false by simp]

/-- C2 (amended): in the two-agent chaos run, tick 1 (the falling edge)
applies intensity 59/60, so its contribution has magnitude
`chaosRepulsionStrength * 59/60`, strictly below the configured strength;
the countdown is `60 - k` after tick `k` and 0 from tick 60 on; tick
`k+1` contributes `strength * (59-k)/60` along the repulsion axis; and
the contribution is already zero on tick 60 and on every later tick,
including tick 61. -/
theorem Orchestrator.chaos_burst_timeline :
    (((chaosRun 1).2.getD 0 default).velocity.length =
        Orchestrator.chaosRepulsionStrength * (59 / 60) ∧
      Orchestrator.chaosRepulsionStrength * (59 / 60) <
        Orchestrator.chaosRepulsionStrength) ∧
    (∀ k, 1 ≤ k → k ≤ 60 → (chaosRun k).1.chaosFramesRemaining = 60 - k) ∧
    (∀ k, 60 ≤ k → (chaosRun k).1.chaosFramesRemaining = 0) ∧
    (∀ k, k < 60 → ((chaosRun (k + 1)).2.getD 0 default).velocity =
      (((chaosRun k).2.getD 0 default).velocity).add
        ⟨-(Orchestrator.chaosRepulsionStrength * (((59 - k : ℕ) : ℝ) / 60)), 0⟩) ∧
    (∀ k, 59 ≤ k → (chaosRun (k + 1)).2 = (chaosRun k).2) := by
  refine ⟨⟨?_, ?_⟩, ?_, ?_, ?_, ?_⟩
  · rw [chaosRun_closed 1]
    simp only [List.getD_cons_zero, agentA, Orchestrator.chaosRepulsionStrength]
    norm_num [burstSum, List.range_succ]
  · norm_num [Orchestrator.chaosRepulsionStrength]
  · intro k h1 h60
    rw [chaosRun_closed k]
    simp only
    rw [if_neg (by omega : ¬ k = 0)]
  · intro k h60
    rw [chaosRun_closed k]
    simp only
    rw [if_neg (by omega : ¬ k = 0)]
    omega
  · intro k hk
    rw [chaosRun_closed k, chaosRun_closed (k + 1), burstSum_succ k hk]
    simp only [List.getD_cons_zero, agentA, Orchestrator.chaosRepulsionStrength, Vector2.add,
      Vector2.mk.injEq]
    constructor
    · ring
    · norm_num
  · intro k hk
    rw [chaosRun_closed k, chaosRun_closed (k + 1)]
    have hS : burstSum (k + 1) = burstSum k := by
      rcases eq_or_lt_of_le hk with h | h

      · rw [← h]
        rw [burstSum_succ 59 (by norm_num)]
        norm_num
      · exact burstSum_stable k (by omega)
    rw [hS]

/-- C2 (witness): the amended timeline applied at concrete ticks 1 and
60/61. -/
theorem Orchestrator.chaos_burst_timeline_witness :
    (chaosRun 1).1.chaosFramesRemaining = 60 - 1 ∧ (chaosRun 61).2 = (chaosRun 60).2 :=
  ⟨Orchestrator.chaos_burst_timeline.2.1 1 (le_refl 1) (by norm_num),
    Orchestrator.chaos_burst_timeline.2.2.2.2 60 (by norm_num)⟩

/-- C2 (counterexample): on tick 1 of the burst the contribution's
magnitude is 1.5 * 59/60 = 1.475, not the configured maximum strength
1.5, because the countdown is decremented before the intensity is
computed. -/
theorem Orchestrator.chaos_tick1_below_configured_strength :
    ((chaosRun 1).2.getD 0 default).velocity.length = 1.475 ∧
      (1.475 : ℝ) ≠ Orchestrator.chaosRepulsionStrength := by
  constructor
  · rw [chaosRun_closed 1]
    simp only [List.getD_cons_zero, agentA]
    norm_num [burstSum, List.range_succ]
  · norm_num [Orchestrator.chaosRepulsionStrength]

/-- C8 (amended): an idle `Orchestrator.update` call with zero chaos
countdown leaves every agent untouched — provided audio was also not
playing on the previous tick; on the falling-edge tick the burst is armed
and applied in the same call even though the countdown was zero at entry. -/
theorem Orchestrator.idle_quiet_update_identity (boids : List Boid) (canvasWidth : ℝ) :
    Orchestrator.update ⟨false, 0⟩ boids none canvasWidth = (⟨false, 0⟩, boids) := by
  simp [Orchestrator.update]

/-- C8 (counterexample): with the chaos countdown zero at entry but
`wasPlaying` still set, an idle call arms and applies the chaos burst in
the same call: the first agent's velocity changes. -/
theorem Orchestrator.idle_zero_countdown_still_kicks :
    (OrchState.mk true 0).chaosFramesRemaining = 0 ∧
      ((Orchestrator.update ⟨true, 0⟩ [agentA ⟨0, 0⟩, agentB ⟨0, 0⟩] none
          1000).2.getD 0 default).velocity ≠ (agentA ⟨0, 0⟩).velocity := by
  refine ⟨rfl, ?_⟩
  rw [Orchestrator.update_pair_falling_edge]
  simp only [List.getD_cons_zero, agentA, Vector2.add, Vector2.mk.injEq, ne_eq]
  norm_num

/-- C5 (amended): two agents of different bands placed `d` apart inside
the separation radius, no other agents: each receives a force directed
away from the other, but of unit magnitude independent of the distance —
the inverse-distance weighting is cancelled by the final normalization
(the applied force is this unit vector times `separationStrength`). -/
theorem Orchestrator.zoneSeparation_pair_directed_away (d : ℝ) (h0 : 0 < d)
    (h150 : d < 150) :
    Orchestrator.getZoneSeparation (agentA ⟨0, 0⟩) [agentA ⟨0, 0⟩, agentBAt d] = ⟨-1, 0⟩ ∧
      Orchestrator.getZoneSeparation (agentBAt d) [agentA ⟨0, 0⟩, agentBAt d] = ⟨1, 0⟩ ∧
      (Orchestrator.getZoneSeparation (agentA ⟨0, 0⟩) [agentA ⟨0, 0⟩, agentBAt d]).length = 1 := by
  refine ⟨Orchestrator.zoneSeparation_pairA d h0 h150,
    Orchestrator.zoneSeparation_pairB d h0 h150, ?_⟩
  rw [Orchestrator.zoneSeparation_pairA d h0 h150]
  simp

/-- C5 (witness): the amended theorem at distance 1. -/
theorem Orchestrator.zoneSeparation_pair_directed_away_witness :
    Orchestrator.getZoneSeparation (agentA ⟨0, 0⟩) [agentA ⟨0, 0⟩, agentBAt 1] = ⟨-1, 0⟩ ∧
      Orchestrator.getZoneSeparation (agentBAt 1) [agentA ⟨0, 0⟩, agentBAt 1] = ⟨1, 0⟩ ∧
      (Orchestrator.getZoneSeparation (agentA ⟨0, 0⟩) [agentA ⟨0, 0⟩, agentBAt 1]).length = 1 :=
  Orchestrator.zoneSeparation_pair_directed_away 1 (by norm_num) (by norm_num)

/-- C5 (counterexample): the separation force at distance 1 and at
distance 2 is the same unit vector, so its magnitude does not scale
inversely with the distance as the claim states. -/
theorem Orchestrator.zoneSeparation_magnitude_distance_independent :
    Orchestrator.getZoneSeparation (agentA ⟨0, 0⟩) [agentA ⟨0, 0⟩, agentBAt 1] =
        Orchestrator.getZoneSeparation (agentA ⟨0, 0⟩) [agentA ⟨0, 0⟩, agentBAt 2] ∧
      (Orchestrator.getZoneSeparation (agentA ⟨0, 0⟩) [agentA ⟨0, 0⟩, agentBAt 1]).length =
        (Orchestrator.getZoneSeparation (agentA ⟨0, 0⟩) [agentA ⟨0, 0⟩, agentBAt 2]).length := by
  rw [Orchestrator.zoneSeparation_pairA 1 (by norm_num) (by norm_num),
    Orchestrator.zoneSeparation_pairA 2 (by norm_num) (by norm_num)]
  exact ⟨rfl, rfl⟩

theorem safeDiv_of_ne {b : ℝ} (a : ℝ) (h : b ≠ 0) : safeDiv a b = some (a / b) := if_neg h

theorem Vector2.normalizeChecked_eq (v : Vector2) :
    v.normalizeChecked = some v.normalize := by
  simp only [Vector2.normalizeChecked, Vector2.normalize]
  by_cases h : v.length > 0
  · rw [if_pos h, if_pos h, safeDiv_of_ne _ (ne_of_gt h), safeDiv_of_ne _ (ne_of_gt h)]
    rfl
  · rw [if_neg h, if_neg h]
    rfl

theorem foldlM_option_eq {α β : Type} (f : β → α → Option β) (g : β → α → β)
    (hfg : ∀ acc a, f acc a = some (g acc a)) :
    ∀ (l : List α) (init : β), l.foldlM f init = some (l.foldl g init) := by
  intro l
  induction l with
  | nil => intro init; rfl
  | cons a l ih =>
    intro init
    rw [List.foldlM_cons, List.foldl_cons, hfg]
    exact ih (g init a)

theorem Boid.getSeparationChecked_eq (cfg : Config) (b : Boid) (boids : List Boid) :
    b.getSeparationChecked cfg boids = some (b.getSeparation cfg boids) := by
  have hstep : ∀ (acc : Vector2 × ℕ) (other : Boid),
      (do
        let d := b.distanceTo other
        if 0 < d ∧ d < cfg.separationDistance then do
          let n ← (b.position.subtract other.position).normalizeChecked
          let invd ← safeDiv 1 d
          pure (acc.1.add (n.multiply invd), acc.2 + 1)
        else pure acc : Option (Vector2 × ℕ)) =
      some (if 0 < b.distanceTo other ∧ b.distanceTo other < cfg.separationDistance then
        (acc.1.add (((b.position.subtract other.position).normalize).multiply
          (1 / b.distanceTo other)), acc.2 + 1)
      else acc) := by
    intro acc other
    by_cases h : 0 < b.distanceTo other ∧ b.distanceTo other < cfg.separationDistance
    · rw [if_pos h, if_pos h, Vector2.normalizeChecked_eq, safeDiv_of_ne 1 (ne_of_gt h.1)]
      rfl
    · rw [if_neg h, if_neg h]
      rfl
  have hfin : ∀ acc : Vector2 × ℕ,
      (if 0 < acc.2 then do
          let invc ← safeDiv 1 (acc.2 : ℝ)
          pure (acc.1.multiply invc)
        else pure acc.1 : Option Vector2) =
        some (if 0 < acc.2 then acc.1.multiply (1 / (acc.2 : ℝ)) else acc.1) := by
    intro acc
    by_cases hc : 0 < acc.2
    · rw [if_pos hc, if_pos hc,
        safeDiv_of_ne 1 (by exact_mod_cast Nat.pos_iff_ne_zero.mp hc)]
      rfl
    · rw [if_neg hc, if_neg hc]
      rfl
  simp only [Boid.getSeparationChecked, Boid.getSeparation]
  rw [foldlM_option_eq _ _ hstep]
  simp only [Option.bind_eq_bind, Option.some_bind]
  exact hfin _

theorem Boid.getCohesionChecked_eq (cfg : Config) (b : Boid) (boids : List Boid) :
    b.getCohesionChecked cfg boids = some (b.getCohesion cfg boids) := by
  have hfin : ∀ acc : Vector2 × ℕ,
      (if 0 < acc.2 then do
          let invc ← safeDiv 1 (acc.2 : ℝ)
          ((acc.1.multiply invc).subtract b.position).normalizeChecked
        else pure ⟨0, 0⟩ : Option Vector2) =
        some (if 0 < acc.2 then
          ((acc.1.multiply (1 / (acc.2 : ℝ))).subtract b.position).normalize
        else ⟨0, 0⟩) := by
    intro acc
    by_cases hc : 0 < acc.2
    · rw [if_pos hc, if_pos hc,
        safeDiv_of_ne 1 (by exact_mod_cast Nat.pos_iff_ne_zero.mp hc)]
      simp only [Option.bind_eq_bind, Option.some_bind, Vector2.normalizeChecked_eq]
    · rw [if_neg hc, if_neg hc]
      rfl
  simp only [Boid.getCohesionChecked, Boid.getCohesion]
  exact hfin _

theorem Boid.getAlignmentChecked_eq (cfg : Config) (b : Boid) (boids : List Boid) :
    b.getAlignmentChecked cfg boids = some (b.getAlignment cfg boids) := by
  have hfin : ∀ acc : Vector2 × ℕ,
      (if 0 < acc.2 then do
          let invc ← safeDiv 1 (acc.2 : ℝ)
          ((acc.1.multiply invc).subtract b.velocity).normalizeChecked
        else pure ⟨0, 0⟩ : Option Vector2) =
        some (if 0 < acc.2 then
          ((acc.1.multiply (1 / (acc.2 : ℝ))).subtract b.velocity).normalize
        else ⟨0, 0⟩) := by
    intro acc
    by_cases hc : 0 < acc.2
    · rw [if_pos hc, if_pos hc,
        safeDiv_of_ne 1 (by exact_mod_cast Nat.pos_iff_ne_zero.mp hc)]
      simp only [Option.bind_eq_bind, Option.some_bind, Vector2.normalizeChecked_eq]
    · rw [if_neg hc, if_neg hc]
      rfl
  simp only [Boid.getAlignmentChecked, Boid.getAlignment]
  exact hfin _

theorem Boid.clampSpeedChecked_eq (cfg : Config) (v : Vector2) :
    Boid.clampSpeedChecked cfg v = some (Boid.clampSpeed cfg v) := by
  simp only [Boid.clampSpeedChecked, Boid.clampSpeed]
  by_cases h1 : v.length > cfg.maxSpeed
  · rw [if_pos h1, if_pos h1, Vector2.normalizeChecked_eq]
    rfl
  · rw [if_neg h1, if_neg h1]
    by_cases h2 : 0 < v.length ∧ v.length < cfg.minVelocity
    · rw [if_pos h2, if_pos h2, Vector2.normalizeChecked_eq]
      rfl
    · rw [if_neg h2, if_neg h2]
      rfl

theorem Boid.forceChecked_eq (v : Vector2) (w : ℝ) :
    Boid.forceChecked v w =
      some (if v.length > 0 then v.normalize.multiply w else ⟨0, 0⟩) := by
  simp only [Boid.forceChecked]
  by_cases h : v.length > 0
  · rw [if_pos h, if_pos h, Vector2.normalizeChecked_eq]
    rfl
  · rw [if_neg h, if_neg h]
    rfl

theorem Boid.dampedVelocityChecked_eq (cfg : Config) (b : Boid) (boids : List Boid)
    (now : ℝ) :
    b.dampedVelocityChecked cfg boids now = some (b.dampedVelocity cfg boids now) := by
  simp only [Boid.dampedVelocityChecked, Boid.dampedVelocity, Boid.getSeparationChecked_eq,
    Boid.getCohesionChecked_eq, Boid.getAlignmentChecked_eq, Boid.forceChecked_eq,
    Option.bind_eq_bind, Option.some_bind]
  rfl

/-- C9: normalizing a zero-length vector returns the zero vector rather
than dividing by zero, and the fully division-checked `Boid.update`
always succeeds and agrees with `Boid.update`: no division by zero (the
source's NaN/Infinity route into position or velocity state) is
reachable for any input. -/
theorem Vector2.normalize_zero_and_update_division_safe :
    (∀ v : Vector2, v.length = 0 → v.normalize = ⟨0, 0⟩) ∧
      ∀ (cfg : Config) (b : Boid) (boids : List Boid)
        (canvasWidth canvasHeight now r1 r2 : ℝ),
        Boid.updateChecked cfg b boids canvasWidth canvasHeight now r1 r2 =
          some (Boid.update cfg b boids canvasWidth canvasHeight now r1 r2) := by
  constructor
  · intro v h
    have hv := Vector2.eq_zero_of_length_eq_zero h
    rw [hv]
    simp [Vector2.normalize, Vector2.length]
  · intro cfg b boids canvasWidth canvasHeight now r1 r2
    simp only [Boid.updateChecked, Boid.update, Boid.dampedVelocityChecked_eq,
      Boid.clampSpeedChecked_eq, Option.bind_eq_bind, Option.some_bind]
    rfl

/-- C9 (witness): the zero vector normalizes to itself, and the checked
update succeeds on a concrete agent. -/
theorem Vector2.normalize_zero_and_update_division_safe_witness :
    Vector2.normalize ⟨0, 0⟩ = ⟨0, 0⟩ ∧
      Boid.updateChecked cfgEx calmBoid [] 1000 1000 0 0 0 =
        some (Boid.update cfgEx calmBoid [] 1000 1000 0 0 0) :=
  ⟨Vector2.normalize_zero_and_update_division_safe.1 ⟨0, 0⟩ (by simp),
    Vector2.normalize_zero_and_update_division_safe.2 cfgEx calmBoid [] 1000 1000 0 0 0⟩

end






